import Mathlib

/-!
Verification of the event-aggregation subsystem (`src/exonum/src/events/mod.rs`):
the unified `Event` union and its per-source conversions, the inverted
lexicographic ordering on `TimeoutRequest`, the four-way priority-merge
`EventsAggregator` and its `poll` state machine, and the `HandlerPart` driver.

External payload types (`NetworkEvent`, `NodeTimeout`, `ExternalMessage`,
`Height`, `Round`, the shared error type) are abstracted as type parameters;
where an order on them matters (`SystemTime`, `NodeTimeout`) they are taken
to be linearly ordered, which mirrors the Rust `Ord` bounds.
-/

namespace Exonum

/-- Rust `InternalEvent`: tagged union with single variant
`JumpToRound(Height, Round)`; `Height` and `Round` are opaque parameters. -/
inductive InternalEvent (H R : Type) : Type
  | JumpToRound (height : H) (round : R)
deriving DecidableEq, Repr

/-- Rust `Event`: tagged union of the four event kinds.  `Ne`, `Nt`, `Em`
stand for the external payload types `NetworkEvent`, `NodeTimeout`,
`ExternalMessage`. -/
inductive Event (Ne Nt Em H R : Type) : Type
  | Network (e : Ne)
  | Timeout (t : Nt)
  | Api (m : Em)
  | Internal (i : InternalEvent H R)
deriving DecidableEq, Repr

/-- Rust `TimeoutRequest(pub SystemTime, pub NodeTimeout)`.  The deadline type
`T` abstracts `SystemTime`, the payload type `P` abstracts `NodeTimeout`. -/
structure TimeoutRequest (T P : Type) : Type where
  deadline : T
  payload : P
deriving DecidableEq, Repr

/-- Lexicographic comparison of pairs, as in Rust
`impl Ord for (A, B)`: compare first components, and on a tie compare the
second components. -/
def pairCompare {α β : Type} [Ord α] [Ord β] (p q : α × β) : Ordering :=
  (compare p.1 q.1).then (compare p.2 q.2)

/-- Rust `impl Ord for TimeoutRequest`:
`(&self.0, &self.1).cmp(&(&other.0, &other.1)).reverse()`.
`Ordering.swap` is Rust `Ordering::reverse` (swaps `Less` and `Greater`). -/
def TimeoutRequest.cmp {T P : Type} [Ord T] [Ord P]
    (self other : TimeoutRequest T P) : Ordering :=
  (pairCompare (self.deadline, self.payload) (other.deadline, other.payload)).swap

/-- Rust `impl PartialOrd for TimeoutRequest`: `Some(self.cmp(other))`.
The Rust method is `partial_cmp`. -/
def TimeoutRequest.pcmp {T P : Type} [Ord T] [Ord P]
    (self other : TimeoutRequest T P) : Option Ordering :=
  some (self.cmp other)

/-- Spec §4.2, stated from the spec's words: compare `(a.deadline, a.payload)`
against `(b.deadline, b.payload)` lexicographically. -/
def specLexCompare {T P : Type} [Ord T] [Ord P]
    (a b : TimeoutRequest T P) : Ordering :=
  match compare a.deadline b.deadline with
  | .eq => compare a.payload b.payload
  | o => o

/-- Spec §4.2, stated from the spec's words: invert a comparison result
(`Less` becomes `Greater` and vice versa, `Equal` stays `Equal`). -/
def specInvert : Ordering → Ordering
  | .lt => .gt
  | .eq => .eq
  | .gt => .lt

/-- Under the `TimeoutRequest` comparator, "the comparison is not `Less`"
says exactly that the pair `(deadline, payload)` is lexicographically no
greater than the other pair. -/
theorem TimeoutRequest.cmp_ne_lt_iff {T P : Type} [LinearOrder T] [LinearOrder P]
    (a b : TimeoutRequest T P) :
    a.cmp b ≠ .lt ↔
      a.deadline < b.deadline ∨ (a.deadline = b.deadline ∧ a.payload ≤ b.payload) := by
  have hcmp : a.cmp b =
      ((compare a.deadline b.deadline).then (compare a.payload b.payload)).swap := rfl
  rw [hcmp]
  cases hT : compare a.deadline b.deadline <;> cases hP : compare a.payload b.payload
  · exact iff_of_true (by decide) (.inl (compare_lt_iff_lt.1 hT))
  · exact iff_of_true (by decide) (.inl (compare_lt_iff_lt.1 hT))
  · exact iff_of_true (by decide) (.inl (compare_lt_iff_lt.1 hT))
  · exact iff_of_true (by decide)
      (.inr ⟨compare_eq_iff_eq.1 hT, le_of_lt (compare_lt_iff_lt.1 hP)⟩)
  · exact iff_of_true (by decide)
      (.inr ⟨compare_eq_iff_eq.1 hT, le_of_eq (compare_eq_iff_eq.1 hP)⟩)
  · refine iff_of_false (by decide) ?_
    rintro (h | ⟨-, hp⟩)
    · exact absurd h (by rw [compare_eq_iff_eq.1 hT]; exact lt_irrefl _)
    · exact absurd hp (not_le_of_gt (compare_gt_iff_gt.1 hP))
  · refine iff_of_false (by decide) ?_
    rintro (h | ⟨he, -⟩)
    · exact absurd h (asymm (compare_gt_iff_gt.1 hT))
    · exact absurd he (ne_of_gt (compare_gt_iff_gt.1 hT))
  · refine iff_of_false (by decide) ?_
    rintro (h | ⟨he, -⟩)
    · exact absurd h (asymm (compare_gt_iff_gt.1 hT))
    · exact absurd he (ne_of_gt (compare_gt_iff_gt.1 hT))
  · refine iff_of_false (by decide) ?_
    rintro (h | ⟨he, -⟩)
    · exact absurd h (asymm (compare_gt_iff_gt.1 hT))
    · exact absurd he (ne_of_gt (compare_gt_iff_gt.1 hT))

/-- C3: the comparison on `TimeoutRequest` values `a` and `b` equals the
lexicographic comparison of `(a.deadline, a.payload)` against
`(b.deadline, b.payload)` with the result inverted. -/
theorem c3_cmp_inverted_lex {T P : Type} [Ord T] [Ord P]
    (a b : TimeoutRequest T P) :
    a.cmp b = specInvert (specLexCompare a b) := by
  cases hT : compare a.deadline b.deadline <;> cases hP : compare a.payload b.payload <;>
    simp [TimeoutRequest.cmp, pairCompare, specLexCompare, specInvert,
      Ordering.then, Ordering.swap, hT, hP]

/-- Witness for C3 at a concrete tie on deadlines. -/
theorem c3_cmp_inverted_lex_witness :
    (TimeoutRequest.mk 1 2 : TimeoutRequest Nat Nat).cmp ⟨1, 3⟩ =
      specInvert (specLexCompare ⟨1, 2⟩ ⟨1, 3⟩) :=
  c3_cmp_inverted_lex ⟨1, 2⟩ ⟨1, 3⟩

/-- C10: `partial_cmp` on `TimeoutRequest` returns `Some` of the `Ord`
comparison and never `None`; the comparison is total (always one of the
three outcomes) and `Equal` holds only between equal requests. -/
theorem c10_pcmp_total {T P : Type} [LinearOrder T] [LinearOrder P]
    (a b : TimeoutRequest T P) :
    a.pcmp b = some (a.cmp b) ∧ a.pcmp b ≠ none ∧
      (a.cmp b = .lt ∨ a.cmp b = .eq ∨ a.cmp b = .gt) ∧
      (a.cmp b = .eq → a = b) := by
  refine ⟨rfl, by simp [TimeoutRequest.pcmp], ?_, ?_⟩
  · cases a.cmp b
    · exact .inl rfl
    · exact .inr (.inl rfl)
    · exact .inr (.inr rfl)
  · intro h
    cases a with
    | mk ad ap =>
      cases b with
      | mk bd bp =>
        simp only [TimeoutRequest.cmp, pairCompare] at h
        cases hT : compare ad bd <;> cases hP : compare ap bp <;>
          rw [hT, hP] at h <;>
          simp [Ordering.then, Ordering.swap] at h
        rw [compare_eq_iff_eq] at hT
        rw [compare_eq_iff_eq] at hP
        rw [hT, hP]

/-- Witness for C10 at concrete requests, also discharging the implication
in the last conjunct at a pair of equal requests. -/
theorem c10_pcmp_total_witness :
    (TimeoutRequest.mk 1 2 : TimeoutRequest Nat Nat).pcmp ⟨3, 4⟩ =
        some ((TimeoutRequest.mk 1 2 : TimeoutRequest Nat Nat).cmp ⟨3, 4⟩) ∧
      (TimeoutRequest.mk 1 2 : TimeoutRequest Nat Nat) = ⟨1, 2⟩ :=
  ⟨(c10_pcmp_total ⟨1, 2⟩ ⟨3, 4⟩).1,
    (c10_pcmp_total (⟨1, 2⟩ : TimeoutRequest Nat Nat) ⟨1, 2⟩).2.2.2 (by decide)⟩

/-- C4: for any multiset of `TimeoutRequest` values inserted in arbitrary
order into a max-oriented priority structure driven by the `TimeoutRequest`
comparator, the extraction sequence (a permutation of the inserted values in
which every element compares not-`Less` against all later ones, i.e. each
extraction returns a maximum of what remains) has non-decreasing deadlines,
and among equal deadlines the smaller payload is extracted first. -/
theorem c4_extraction_order {T P : Type} [LinearOrder T] [LinearOrder P]
    (inserted extracted : List (TimeoutRequest T P))
    (_hperm : extracted.Perm inserted)
    (hmax : extracted.Sorted (fun a b => a.cmp b ≠ .lt)) :
    extracted.Sorted (fun a b => a.deadline ≤ b.deadline) ∧
      extracted.Sorted (fun a b => a.deadline = b.deadline → a.payload ≤ b.payload) := by
  constructor
  · refine hmax.imp (fun h => ?_)
    rcases (TimeoutRequest.cmp_ne_lt_iff _ _).1 h with h' | ⟨h', _⟩
    · exact le_of_lt h'
    · exact le_of_eq h'
  · refine hmax.imp (fun h heq => ?_)
    rcases (TimeoutRequest.cmp_ne_lt_iff _ _).1 h with h' | ⟨_, h'⟩
    · exact absurd h' (by rw [heq]; exact lt_irrefl _)
    · exact h'

/-- Witness for C4: deadlines `2, 1, 1, 3` with payloads breaking the tie;
extraction yields deadlines `1, 1, 2, 3` with the smaller payload first. -/
theorem c4_extraction_order_witness :
    (List.Sorted (fun a b : TimeoutRequest Nat Nat => a.deadline ≤ b.deadline)
        [⟨1, 3⟩, ⟨1, 5⟩, ⟨2, 0⟩, ⟨3, 1⟩]) ∧
      (List.Sorted
        (fun a b : TimeoutRequest Nat Nat => a.deadline = b.deadline → a.payload ≤ b.payload)
        [⟨1, 3⟩, ⟨1, 5⟩, ⟨2, 0⟩, ⟨3, 1⟩]) :=
  c4_extraction_order [⟨2, 0⟩, ⟨1, 5⟩, ⟨1, 3⟩, ⟨3, 1⟩]
    [⟨1, 3⟩, ⟨1, 5⟩, ⟨2, 0⟩, ⟨3, 1⟩] (by decide) (by decide)

/-- Rust `futures 0.1` `Async`: a poll either has a value ready or is not
ready. -/
inductive Async (α : Type) : Type
  | Ready (a : α)
  | NotReady
deriving DecidableEq, Repr

/-- One outcome of polling a `futures 0.1` stream, flattening
`Result<Async<Option<Item>>, Error>`: `item a` is `Ok(Ready(Some(a)))`,
`closed` is `Ok(Ready(None))` (end of stream), `notReady` is `Ok(NotReady)`,
and `failed e` is `Err(e)`. -/
inductive StreamPoll (α ε : Type) : Type
  | item (a : α)
  | closed
  | notReady
  | failed (e : ε)
deriving DecidableEq, Repr

/-- A single-consumer stream endpoint is modelled by the script of outcomes
its successive `poll` calls return; polling consumes the head of the script.
An exhausted script answers `notReady` forever (a quiescent producer). -/
def pollStream {α ε : Type} :
    List (StreamPoll α ε) → StreamPoll α ε × List (StreamPoll α ε)
  | [] => (.notReady, [])
  | r :: rest => (r, rest)

/-- Rust `EventsAggregator<S1, S2, S3, S4>`: the `done` flag plus the four
owned stream endpoints, in the source's field order. -/
structure EventsAggregator (Nt Ne Em H R ε : Type) : Type where
  done : Bool
  timeout : List (StreamPoll Nt ε)
  network : List (StreamPoll Ne ε)
  api : List (StreamPoll Em ε)
  internal : List (StreamPoll (InternalEvent H R) ε)
deriving DecidableEq, Repr

/-- Rust `EventsAggregator::new(timeout, network, api, internal)`:
`done` starts `false`. -/
def EventsAggregator.new {Nt Ne Em H R ε : Type}
    (timeout : List (StreamPoll Nt ε)) (network : List (StreamPoll Ne ε))
    (api : List (StreamPoll Em ε))
    (internal : List (StreamPoll (InternalEvent H R) ε)) :
    EventsAggregator Nt Ne Em H R ε :=
  { done := false, network := network, timeout := timeout,
    api := api, internal := internal }

/-- Rust `<EventsAggregator as Stream>::poll`, returning the step's result
together with the aggregator state after the step.  The sources are
inspected in the fixed order internal, timeout, network, api; an item is
returned immediately; a closed source sets `done` and completes the stream;
an error propagates through `?`; `notReady` falls through to the next
source. -/
def EventsAggregator.poll {Nt Ne Em H R ε : Type}
    (self : EventsAggregator Nt Ne Em H R ε) :
    Except ε (Async (Option (Event Ne Nt Em H R))) × EventsAggregator Nt Ne Em H R ε :=
  if self.done then
    (.ok (.Ready none), self)
  else
    match pollStream self.internal with
    | (.item a, s) => (.ok (.Ready (some (.Internal a))), { self with internal := s })
    | (.closed, s) => (.ok (.Ready none), { self with internal := s, done := true })
    | (.failed e, s) => (.error e, { self with internal := s })
    | (.notReady, s) =>
      let self := { self with internal := s }
      match pollStream self.timeout with
      | (.item a, s) => (.ok (.Ready (some (.Timeout a))), { self with timeout := s })
      | (.closed, s) => (.ok (.Ready none), { self with timeout := s, done := true })
      | (.failed e, s) => (.error e, { self with timeout := s })
      | (.notReady, s) =>
        let self := { self with timeout := s }
        match pollStream self.network with
        | (.item a, s) => (.ok (.Ready (some (.Network a))), { self with network := s })
        | (.closed, s) => (.ok (.Ready none), { self with network := s, done := true })
        | (.failed e, s) => (.error e, { self with network := s })
        | (.notReady, s) =>
          let self := { self with network := s }
          match pollStream self.api with
          | (.item a, s) => (.ok (.Ready (some (.Api a))), { self with api := s })
          | (.closed, s) => (.ok (.Ready none), { self with api := s, done := true })
          | (.failed e, s) => (.error e, { self with api := s })
          | (.notReady, s) => (.ok .NotReady, { self with api := s })

/-- The results of `n` successive `poll` steps from a given state. -/
def pollSteps {Nt Ne Em H R ε : Type} :
    Nat → EventsAggregator Nt Ne Em H R ε →
      List (Except ε (Async (Option (Event Ne Nt Em H R))))
  | 0, _ => []
  | n + 1, s => (s.poll).1 :: pollSteps n (s.poll).2

instance {ε α : Type} [DecidableEq ε] [DecidableEq α] :
    DecidableEq (Except ε α) := fun a b =>
  match a, b with
  | .ok a, .ok b =>
    if h : a = b then .isTrue (by rw [h])
    else .isFalse (by intro hh; cases hh; exact h rfl)
  | .ok _, .error _ => .isFalse (by intro h; cases h)
  | .error _, .ok _ => .isFalse (by intro h; cases h)
  | .error e, .error f =>
    if h : e = f then .isTrue (by rw [h])
    else .isFalse (by intro hh; cases hh; exact h rfl)

/-- Whether a stream outcome is a ready item. -/
def StreamPoll.isItem {α ε : Type} : StreamPoll α ε → Bool
  | .item _ => true
  | _ => false

/-- How many of the four sources currently have an item ready. -/
def readyCount {Nt Ne Em H R ε : Type} (s : EventsAggregator Nt Ne Em H R ε) : Nat :=
  (if ((pollStream s.internal).1).isItem then 1 else 0) +
    (if ((pollStream s.timeout).1).isItem then 1 else 0) +
    (if ((pollStream s.network).1).isItem then 1 else 0) +
    (if ((pollStream s.api).1).isItem then 1 else 0)

/-- The item of the highest-priority source with an item currently ready,
wrapped as the event it enters the unified stream as
(Internal > Timeout > Network > Api). -/
def firstItemEvent {Nt Ne Em H R ε : Type} (s : EventsAggregator Nt Ne Em H R ε) :
    Option (Event Ne Nt Em H R) :=
  match (pollStream s.internal).1 with
  | .item a => some (.Internal a)
  | _ =>
    match (pollStream s.timeout).1 with
    | .item a => some (.Timeout a)
    | _ =>
      match (pollStream s.network).1 with
      | .item a => some (.Network a)
      | _ =>
        match (pollStream s.api).1 with
        | .item a => some (.Api a)
        | _ => none

/-- Scanning the four sources in priority order, the first outcome that is
not `notReady` is a ready item: no closed or failed source hides the
highest-priority ready item. -/
def itemsVisible {Nt Ne Em H R ε : Type} (s : EventsAggregator Nt Ne Em H R ε) : Bool :=
  match (pollStream s.internal).1 with
  | .item _ => true
  | .notReady =>
    match (pollStream s.timeout).1 with
    | .item _ => true
    | .notReady =>
      match (pollStream s.network).1 with
      | .item _ => true
      | .notReady =>
        match (pollStream s.api).1 with
        | .item _ => true
        | _ => false
      | _ => false
    | _ => false
  | _ => false

/-- Once `done` is set, `poll` reports completion and leaves the whole state
(the flag and all four scripts) unchanged. -/
theorem poll_of_done {Nt Ne Em H R ε : Type} (s : EventsAggregator Nt Ne Em H R ε)
    (h : s.done = true) : s.poll = (.ok (.Ready none), s) := by
  simp [EventsAggregator.poll, h]

/-- Once `done` is set, every run of later steps is a sequence of
"stream complete" reports. -/
theorem pollSteps_of_done {Nt Ne Em H R ε : Type} (s : EventsAggregator Nt Ne Em H R ε)
    (h : s.done = true) :
    ∀ n, pollSteps n s = List.replicate n (.ok (.Ready none))
  | 0 => rfl
  | n + 1 => by
    simp [pollSteps, poll_of_done s h, pollSteps_of_done s h n, List.replicate]

/-- C5: once the aggregator has reported completion (`done = true`), every
subsequent `poll` reports completion again with the state — flag and all
four source scripts — unchanged (so no source is polled), and no later step
ever returns an item or an error. -/
theorem c5_terminated_absorbing {Nt Ne Em H R ε : Type}
    (s : EventsAggregator Nt Ne Em H R ε) (h : s.done = true) :
    s.poll = (.ok (.Ready none), s) ∧
      ∀ n, pollSteps n s = List.replicate n (.ok (.Ready none)) :=
  ⟨poll_of_done s h, pollSteps_of_done s h⟩

/-- Witness for C5: a terminated state with items, a closure and an error
still buffered; `poll` completes and touches nothing. -/
theorem c5_terminated_absorbing_witness :
    (EventsAggregator.mk true [.item 7] [.item 8] [.closed] [.failed 3] :
        EventsAggregator Nat Nat Nat Nat Nat Nat).poll =
      (.ok (.Ready none),
        EventsAggregator.mk true [.item 7] [.item 8] [.closed] [.failed 3]) ∧
      ∀ n, pollSteps n
          (EventsAggregator.mk true [.item 7] [.item 8] [.closed] [.failed 3] :
            EventsAggregator Nat Nat Nat Nat Nat Nat) =
        List.replicate n (.ok (.Ready none)) :=
  c5_terminated_absorbing _ rfl

/-- C2: in the Active state, if the first source (in priority order) whose
outcome is not `notReady` reports closed, `poll` sets `done` and reports
completion in that step; the resulting state shows that no lower-priority
source was inspected (its script is untouched), and — by the last conjunct —
once `done` is set no later step ever emits an item, so items buffered on
still-open sources are never emitted. -/
theorem c2_fail_fast_closure {Nt Ne Em H R ε : Type}
    (s : EventsAggregator Nt Ne Em H R ε) (hdone : s.done = false) :
    ((pollStream s.internal).1 = .closed →
        s.poll = (.ok (.Ready none),
          { s with internal := (pollStream s.internal).2, done := true })) ∧
      ((pollStream s.internal).1 = .notReady → (pollStream s.timeout).1 = .closed →
        s.poll = (.ok (.Ready none),
          { s with internal := (pollStream s.internal).2,
                   timeout := (pollStream s.timeout).2, done := true })) ∧
      ((pollStream s.internal).1 = .notReady → (pollStream s.timeout).1 = .notReady →
        (pollStream s.network).1 = .closed →
        s.poll = (.ok (.Ready none),
          { s with internal := (pollStream s.internal).2,
                   timeout := (pollStream s.timeout).2,
                   network := (pollStream s.network).2, done := true })) ∧
      ((pollStream s.internal).1 = .notReady → (pollStream s.timeout).1 = .notReady →
        (pollStream s.network).1 = .notReady → (pollStream s.api).1 = .closed →
        s.poll = (.ok (.Ready none),
          { s with internal := (pollStream s.internal).2,
                   timeout := (pollStream s.timeout).2,
                   network := (pollStream s.network).2,
                   api := (pollStream s.api).2, done := true })) ∧
      (∀ t : EventsAggregator Nt Ne Em H R ε, t.done = true →
        ∀ n, pollSteps n t = List.replicate n (.ok (.Ready none))) := by
  refine ⟨?_, ?_, ?_, ?_, fun t ht n => pollSteps_of_done t ht n⟩
  · intro h1
    rcases hI : pollStream s.internal with ⟨rI, sI⟩
    rw [hI] at h1
    cases h1
    simp [EventsAggregator.poll, hdone, hI]
  · intro h1 h2
    rcases hI : pollStream s.internal with ⟨rI, sI⟩
    rcases hT : pollStream s.timeout with ⟨rT, sT⟩
    rw [hI] at h1
    rw [hT] at h2
    cases h1
    cases h2
    simp [EventsAggregator.poll, hdone, hI, hT]
  · intro h1 h2 h3
    rcases hI : pollStream s.internal with ⟨rI, sI⟩
    rcases hT : pollStream s.timeout with ⟨rT, sT⟩
    rcases hN : pollStream s.network with ⟨rN, sN⟩
    rw [hI] at h1
    rw [hT] at h2
    rw [hN] at h3
    cases h1
    cases h2
    cases h3
    simp [EventsAggregator.poll, hdone, hI, hT, hN]
  · intro h1 h2 h3 h4
    rcases hI : pollStream s.internal with ⟨rI, sI⟩
    rcases hT : pollStream s.timeout with ⟨rT, sT⟩
    rcases hN : pollStream s.network with ⟨rN, sN⟩
    rcases hA : pollStream s.api with ⟨rA, sA⟩
    rw [hI] at h1
    rw [hT] at h2
    rw [hN] at h3
    rw [hA] at h4
    cases h1
    cases h2
    cases h3
    cases h4
    simp [EventsAggregator.poll, hdone, hI, hT, hN, hA]

/-- Witness for C2: the timeout source closes while network and api still
hold unread items; `poll` completes at once, the network and api scripts are
untouched, and all later steps report completion. -/
theorem c2_fail_fast_closure_witness :
    ((EventsAggregator.mk false [.closed] [.item 6] [.item 9] [.notReady] :
        EventsAggregator Nat Nat Nat Nat Nat Nat).poll =
      (.ok (.Ready none),
        EventsAggregator.mk true [] [.item 6] [.item 9] []) ∧
      ∀ n, pollSteps n
          (EventsAggregator.mk true [] [.item 6] [.item 9] [] :
            EventsAggregator Nat Nat Nat Nat Nat Nat) =
        List.replicate n (.ok (.Ready none))) := by
  have h := c2_fail_fast_closure
    (EventsAggregator.mk false [.closed] [.item 6] [.item 9] [.notReady] :
      EventsAggregator Nat Nat Nat Nat Nat Nat) rfl
  exact ⟨h.2.1 rfl rfl, fun n => h.2.2.2.2 _ rfl n⟩

/-- C6: in the Active state, when the first source (in priority order) whose
outcome is not `notReady` reports an error, `poll` aborts the step and
returns that error value unchanged; the resulting state (an explicit record
update that does not touch `done`) shows that no item is emitted, no
lower-priority source is inspected, and `done` stays `false`; and whenever
`poll` returns an error the `done` flag afterwards is `false`. -/
theorem c6_error_propagation {Nt Ne Em H R ε : Type}
    (s : EventsAggregator Nt Ne Em H R ε) (hdone : s.done = false) :
    (∀ e, (pollStream s.internal).1 = .failed e →
        s.poll = (.error e, { s with internal := (pollStream s.internal).2 })) ∧
      (∀ e, (pollStream s.internal).1 = .notReady → (pollStream s.timeout).1 = .failed e →
        s.poll = (.error e,
          { s with internal := (pollStream s.internal).2,
                   timeout := (pollStream s.timeout).2 })) ∧
      (∀ e, (pollStream s.internal).1 = .notReady → (pollStream s.timeout).1 = .notReady →
        (pollStream s.network).1 = .failed e →
        s.poll = (.error e,
          { s with internal := (pollStream s.internal).2,
                   timeout := (pollStream s.timeout).2,
                   network := (pollStream s.network).2 })) ∧
      (∀ e, (pollStream s.internal).1 = .notReady → (pollStream s.timeout).1 = .notReady →
        (pollStream s.network).1 = .notReady → (pollStream s.api).1 = .failed e →
        s.poll = (.error e,
          { s with internal := (pollStream s.internal).2,
                   timeout := (pollStream s.timeout).2,
                   network := (pollStream s.network).2,
                   api := (pollStream s.api).2 })) ∧
      (∀ e, (s.poll).1 = .error e → (s.poll).2.done = false) := by
  refine ⟨?_, ?_, ?_, ?_, ?_⟩
  · intro e h1
    rcases hI : pollStream s.internal with ⟨rI, sI⟩
    rw [hI] at h1
    cases h1
    simp [EventsAggregator.poll, hdone, hI]
  · intro e h1 h2
    rcases hI : pollStream s.internal with ⟨rI, sI⟩
    rcases hT : pollStream s.timeout with ⟨rT, sT⟩
    rw [hI] at h1
    rw [hT] at h2
    cases h1
    cases h2
    simp [EventsAggregator.poll, hdone, hI, hT]
  · intro e h1 h2 h3
    rcases hI : pollStream s.internal with ⟨rI, sI⟩
    rcases hT : pollStream s.timeout with ⟨rT, sT⟩
    rcases hN : pollStream s.network with ⟨rN, sN⟩
    rw [hI] at h1
    rw [hT] at h2
    rw [hN] at h3
    cases h1
    cases h2
    cases h3
    simp [EventsAggregator.poll, hdone, hI, hT, hN]
  · intro e h1 h2 h3 h4
    rcases hI : pollStream s.internal with ⟨rI, sI⟩
    rcases hT : pollStream s.timeout with ⟨rT, sT⟩
    rcases hN : pollStream s.network with ⟨rN, sN⟩
    rcases hA : pollStream s.api with ⟨rA, sA⟩
    rw [hI] at h1
    rw [hT] at h2
    rw [hN] at h3
    rw [hA] at h4
    cases h1
    cases h2
    cases h3
    cases h4
    simp [EventsAggregator.poll, hdone, hI, hT, hN, hA]
  · intro e h
    rcases hI : pollStream s.internal with ⟨rI, sI⟩
    rcases hT : pollStream s.timeout with ⟨rT, sT⟩
    rcases hN : pollStream s.network with ⟨rN, sN⟩
    rcases hA : pollStream s.api with ⟨rA, sA⟩
    cases rI <;> cases rT <;> cases rN <;> cases rA <;>
      simp_all [EventsAggregator.poll, hdone, hI, hT, hN, hA]

/-- Witness for C6: the internal source is quiet and the timeout source
fails with error value `42`; `poll` returns exactly that error, leaves the
network and api scripts untouched and keeps `done = false`. -/
theorem c6_error_propagation_witness :
    (EventsAggregator.mk false [.failed 42] [.item 6] [.item 9] [.notReady] :
        EventsAggregator Nat Nat Nat Nat Nat Nat).poll =
      (.error 42, EventsAggregator.mk false [] [.item 6] [.item 9] []) :=
  (c6_error_propagation
    (EventsAggregator.mk false [.failed 42] [.item 6] [.item 9] [.notReady] :
      EventsAggregator Nat Nat Nat Nat Nat Nat) rfl).2.1 42 rfl rfl

/-- C9: whenever `poll` returns an item, the aggregator was Active and stays
Active (`done = false` before and after): emitting an event never
terminates the merge, so a closed lower-priority source is observed — and
ends the merge — only on a step where every higher-priority source is not
ready. -/
theorem c9_emission_keeps_active {Nt Ne Em H R ε : Type}
    (s : EventsAggregator Nt Ne Em H R ε) (ev : Event Ne Nt Em H R)
    (h : (s.poll).1 = .ok (.Ready (some ev))) :
    s.done = false ∧ (s.poll).2.done = false := by
  by_cases hd : s.done
  · rw [poll_of_done s hd] at h
    simp at h
  · rw [Bool.not_eq_true] at hd
    refine ⟨hd, ?_⟩
    rcases hI : pollStream s.internal with ⟨rI, sI⟩
    rcases hT : pollStream s.timeout with ⟨rT, sT⟩
    rcases hN : pollStream s.network with ⟨rN, sN⟩
    rcases hA : pollStream s.api with ⟨rA, sA⟩
    cases rI <;> cases rT <;> cases rN <;> cases rA <;>
      simp_all [EventsAggregator.poll, hd, hI, hT, hN, hA]

/-- Witness for C9: the internal source has an item while the timeout source
has already closed; the item is emitted and `done` stays `false`. -/
theorem c9_emission_keeps_active_witness :
    (EventsAggregator.mk false [.closed] [] [] [.item (.JumpToRound 1 2)] :
          EventsAggregator Nat Nat Nat Nat Nat Nat).done = false ∧
      ((EventsAggregator.mk false [.closed] [] [] [.item (.JumpToRound 1 2)] :
          EventsAggregator Nat Nat Nat Nat Nat Nat).poll).2.done = false :=
  c9_emission_keeps_active _ (.Internal (.JumpToRound 1 2)) rfl

/-- Counterexample to C1 as stated: with items simultaneously ready on the
timeout and network sources but the internal source closed, `poll` emits no
item at all — it reports stream completion — rather than the item of the
highest-priority ready source (the timeout item). -/
theorem c1_priority_counterexample :
    (EventsAggregator.mk false [.item 5] [.item 6] [] [.closed] :
          EventsAggregator Nat Nat Nat Nat Nat Nat).done = false ∧
      2 ≤ readyCount (EventsAggregator.mk false [.item 5] [.item 6] [] [.closed] :
          EventsAggregator Nat Nat Nat Nat Nat Nat) ∧
      firstItemEvent (EventsAggregator.mk false [.item 5] [.item 6] [] [.closed] :
          EventsAggregator Nat Nat Nat Nat Nat Nat) = some (.Timeout 5) ∧
      ((EventsAggregator.mk false [.item 5] [.item 6] [] [.closed] :
          EventsAggregator Nat Nat Nat Nat Nat Nat).poll).1 = .ok (.Ready none) ∧
      ¬ ((EventsAggregator.mk false [.item 5] [.item 6] [] [.closed] :
          EventsAggregator Nat Nat Nat Nat Nat Nat).poll).1 =
        .ok (.Ready (some (Event.Timeout 5))) := by
  decide

/-- C1 (amended): in the Active state, if items are simultaneously ready on
more than one of the four sources and every source of higher priority than
the highest-priority item-ready source is not ready (neither closed nor
failed), then `poll` emits exactly one item, namely the item of the
highest-priority ready source under Internal > Timeout > Network > Api. -/
theorem c1_priority_amended {Nt Ne Em H R ε : Type}
    (s : EventsAggregator Nt Ne Em H R ε) (hdone : s.done = false)
    (_hready : 2 ≤ readyCount s) (hvis : itemsVisible s = true) :
    ∃ ev, firstItemEvent s = some ev ∧ (s.poll).1 = .ok (.Ready (some ev)) := by
  rcases hI : pollStream s.internal with ⟨rI, sI⟩
  rcases hT : pollStream s.timeout with ⟨rT, sT⟩
  rcases hN : pollStream s.network with ⟨rN, sN⟩
  rcases hA : pollStream s.api with ⟨rA, sA⟩
  cases rI <;> cases rT <;> cases rN <;> cases rA <;>
    simp_all [EventsAggregator.poll, firstItemEvent, itemsVisible, hdone]

/-- Witness for C1 (amended): internal quiet, items ready on both the
timeout and network sources; the timeout item wins. -/
theorem c1_priority_amended_witness :
    ∃ ev, firstItemEvent (EventsAggregator.mk false [.item 5] [.item 6] [] [.notReady] :
          EventsAggregator Nat Nat Nat Nat Nat Nat) = some ev ∧
      ((EventsAggregator.mk false [.item 5] [.item 6] [] [.notReady] :
          EventsAggregator Nat Nat Nat Nat Nat Nat).poll).1 = .ok (.Ready (some ev)) :=
  c1_priority_amended _ rfl (by decide) (by decide)

/-- Rust `impl Into<Event> for NetworkEvent`: `Event::Network(self)`. -/
def networkIntoEvent {Ne Nt Em H R : Type} (self : Ne) : Event Ne Nt Em H R :=
  .Network self

/-- Rust `impl Into<Event> for NodeTimeout`: `Event::Timeout(self)`. -/
def timeoutIntoEvent {Ne Nt Em H R : Type} (self : Nt) : Event Ne Nt Em H R :=
  .Timeout self

/-- Rust `impl Into<Event> for ExternalMessage`: `Event::Api(self)`. -/
def apiIntoEvent {Ne Nt Em H R : Type} (self : Em) : Event Ne Nt Em H R :=
  .Api self

/-- Rust `impl Into<Event> for InternalEvent`: `Event::Internal(self)`. -/
def internalIntoEvent {Ne Nt Em H R : Type} (self : InternalEvent H R) :
    Event Ne Nt Em H R :=
  .Internal self

/-- C7: each source type's conversion into `Event` is total (a function),
produces the matching variant wrapping exactly the original payload, and is
lossless (the payload is recoverable: the conversion is injective).  That
each source type has exactly one such conversion is reflected by the
development containing exactly one conversion per source type, as the
source contains exactly one `Into<Event>` impl per type. -/
theorem c7_conversions {Ne Nt Em H R : Type} :
    (∀ e : Ne, (networkIntoEvent e : Event Ne Nt Em H R) = .Network e) ∧
      (∀ t : Nt, (timeoutIntoEvent t : Event Ne Nt Em H R) = .Timeout t) ∧
      (∀ m : Em, (apiIntoEvent m : Event Ne Nt Em H R) = .Api m) ∧
      (∀ i : InternalEvent H R, (internalIntoEvent i : Event Ne Nt Em H R) = .Internal i) ∧
      (∀ x y : Ne, (networkIntoEvent x : Event Ne Nt Em H R) = networkIntoEvent y → x = y) ∧
      (∀ x y : Nt, (timeoutIntoEvent x : Event Ne Nt Em H R) = timeoutIntoEvent y → x = y) ∧
      (∀ x y : Em, (apiIntoEvent x : Event Ne Nt Em H R) = apiIntoEvent y → x = y) ∧
      (∀ x y : InternalEvent H R,
        (internalIntoEvent x : Event Ne Nt Em H R) = internalIntoEvent y → x = y) := by
  refine ⟨fun _ => rfl, fun _ => rfl, fun _ => rfl, fun _ => rfl, ?_, ?_, ?_, ?_⟩ <;>
    intro x y h <;> injection h

/-- Witness for C7 at concrete payloads, also discharging the hypothesis of
an injectivity conjunct. -/
theorem c7_conversions_witness :
    (networkIntoEvent 3 : Event Nat Nat Nat Nat Nat) = .Network 3 ∧ (3 : Nat) = 3 :=
  ⟨(@c7_conversions Nat Nat Nat Nat Nat).1 3,
    (@c7_conversions Nat Nat Nat Nat Nat).2.2.2.2.1 3 3 rfl⟩

/-- Rust `HandlerPart`: the handler plus the four receiver endpoints, in the
source's field order.  The handler's trait method `handle_event` mutates the
handler; it is modelled as an explicit transition `Hs → Event → Hs` passed
to the driver, so the handler state records the calls it received. -/
structure HandlerPart (Hs Nt Ne Em H R ε : Type) : Type where
  handler : Hs
  internalRx : List (StreamPoll (InternalEvent H R) ε)
  timeoutRx : List (StreamPoll Nt ε)
  networkRx : List (StreamPoll Ne ε)
  apiRx : List (StreamPoll Em ε)

/-- The `for_each` loop inside `HandlerPart::run`: repeatedly poll the
aggregator, synchronously feeding every produced event to `handle_event`;
complete successfully when the stream completes, and with the error when a
poll fails.  `fuel` bounds the number of polls; `none` models a future that
is still pending (the task suspends on `NotReady` and is resumed).  The
final handler state is returned so that the calls it received are
observable (Rust drops the handler when the future completes). -/
def runLoop {Hs Nt Ne Em H R ε : Type} (handleEvent : Hs → Event Ne Nt Em H R → Hs) :
    Nat → Hs → EventsAggregator Nt Ne Em H R ε → Option (Except ε Hs)
  | 0, _, _ => none
  | n + 1, h, s =>
    match s.poll with
    | (.ok (.Ready (some ev)), s') => runLoop handleEvent n (handleEvent h ev) s'
    | (.ok (.Ready none), _) => some (.ok h)
    | (.ok .NotReady, s') => runLoop handleEvent n h s'
    | (.error e, _) => some (.error e)

/-- Rust `HandlerPart::run`: builds one aggregator from the four endpoints —
`EventsAggregator::new(timeout_rx, network_rx, api_rx, internal_rx)` — and
runs the `for_each` loop over it. -/
def HandlerPart.run {Hs Nt Ne Em H R ε : Type}
    (handleEvent : Hs → Event Ne Nt Em H R → Hs) (fuel : Nat)
    (self : HandlerPart Hs Nt Ne Em H R ε) : Option (Except ε Hs) :=
  runLoop handleEvent fuel self.handler
    (EventsAggregator.new self.timeoutRx self.networkRx self.apiRx self.internalRx)

/-- The events the aggregator emits over at most `fuel` steps, in emission
order, up to completion or the first error. -/
def emittedEvents {Nt Ne Em H R ε : Type} :
    Nat → EventsAggregator Nt Ne Em H R ε → List (Event Ne Nt Em H R)
  | 0, _ => []
  | n + 1, s =>
    match s.poll with
    | (.ok (.Ready (some ev)), s') => ev :: emittedEvents n s'
    | (.ok (.Ready none), _) => []
    | (.ok .NotReady, s') => emittedEvents n s'
    | (.error _, _) => []

/-- How the aggregate stream ends within `fuel` steps: clean completion,
an error, or still pending (`none`). -/
def streamOutcome {Nt Ne Em H R ε : Type} :
    Nat → EventsAggregator Nt Ne Em H R ε → Option (Except ε Unit)
  | 0, _ => none
  | n + 1, s =>
    match s.poll with
    | (.ok (.Ready (some _)), s') => streamOutcome n s'
    | (.ok (.Ready none), _) => some (.ok ())
    | (.ok .NotReady, s') => streamOutcome n s'
    | (.error e, _) => some (.error e)

/-- The driver loop equals folding `handle_event` over the emitted events,
with the stream's own outcome deciding how the run ends. -/
theorem runLoop_eq {Hs Nt Ne Em H R ε : Type} (he : Hs → Event Ne Nt Em H R → Hs) :
    ∀ (n : Nat) (h : Hs) (s : EventsAggregator Nt Ne Em H R ε),
      runLoop he n h s =
        (match streamOutcome n s with
          | none => none
          | some (.ok _) => some (.ok (List.foldl he h (emittedEvents n s)))
          | some (.error e) => some (.error e))
  | 0, h, s => rfl
  | n + 1, h, s => by
    rcases hp : s.poll with ⟨r, s'⟩
    rcases r with e | a
    · simp [runLoop, streamOutcome, hp]
    · rcases a with aopt | _
      · rcases aopt with _ | ev
        · simp [runLoop, streamOutcome, emittedEvents, hp]
        · simp [runLoop, streamOutcome, emittedEvents, hp,
            runLoop_eq he n (he h ev) s']
      · simp [runLoop, streamOutcome, emittedEvents, hp, runLoop_eq he n h s']

/-- C8: `run` builds one aggregator from the driver's four endpoints and
steps it to exhaustion, invoking `handle_event` exactly once, synchronously
and in emission order, for each event the aggregator produces (the final
handler state is the fold of `handle_event` over the emitted events); it
completes successfully when the aggregator reports stream completion and
completes with the propagated error when the aggregator returns an error. -/
theorem c8_run_drives_handler {Hs Nt Ne Em H R ε : Type}
    (he : Hs → Event Ne Nt Em H R → Hs) (fuel : Nat)
    (self : HandlerPart Hs Nt Ne Em H R ε) :
    (streamOutcome fuel
        (EventsAggregator.new self.timeoutRx self.networkRx self.apiRx self.internalRx) =
          some (.ok ()) →
      self.run he fuel = some (.ok (List.foldl he self.handler
        (emittedEvents fuel
          (EventsAggregator.new self.timeoutRx self.networkRx self.apiRx
            self.internalRx))))) ∧
      (∀ e, streamOutcome fuel
          (EventsAggregator.new self.timeoutRx self.networkRx self.apiRx self.internalRx) =
            some (.error e) →
        self.run he fuel = some (.error e)) ∧
      (streamOutcome fuel
          (EventsAggregator.new self.timeoutRx self.networkRx self.apiRx self.internalRx) =
            none →
        self.run he fuel = none) := by
  refine ⟨?_, ?_, ?_⟩
  · intro h
    rw [HandlerPart.run, runLoop_eq, h]
  · intro e h
    rw [HandlerPart.run, runLoop_eq, h]
  · intro h
    rw [HandlerPart.run, runLoop_eq, h]

/-- Witness for C8 (the spec's Scenario A): internal emits two items with the
network item interleaved; the handler — instantiated to record the events it
receives — is invoked once per event in emission order, and the run
completes successfully when the internal source closes. -/
theorem c8_run_drives_handler_witness :
    (HandlerPart.mk ([] : List (Event Nat Nat Nat Nat Nat))
          [.item (.JumpToRound 1 1), .notReady, .item (.JumpToRound 2 2), .closed]
          [] [.item 7] []
        : HandlerPart (List (Event Nat Nat Nat Nat Nat)) Nat Nat Nat Nat Nat Nat).run
        (fun l ev => l ++ [ev]) 4 =
      some (.ok [.Internal (.JumpToRound 1 1), .Network 7,
        .Internal (.JumpToRound 2 2)]) := by
  obtain ⟨h1, -, -⟩ := c8_run_drives_handler (fun l ev => l ++ [ev]) 4
    (HandlerPart.mk ([] : List (Event Nat Nat Nat Nat Nat))
      [.item (.JumpToRound 1 1), .notReady, .item (.JumpToRound 2 2), .closed]
      [] [.item 7] [])
  exact (h1 rfl).trans rfl

end Exonum
